import Mathlib

/-!
Verification development for the md2pdf pipeline (md2pdf.py).

The script has four parts that the properties below concern:

* `preprocess_markdown` — a pure text pass that inserts blank lines before
  list items that directly follow non-blank, non-list text;
* `convert_md_to_html` — reads the source, preprocesses it, and wraps the
  rendered markdown fragment in a fixed HTML template;
* `convert_html_to_pdf` — locates a Chrome/Chromium binary from a fixed
  path list, runs it, and interprets exit code / output-file presence;
* `main` — derives the destination PDF path and the intermediate HTML path
  from the source path.

Strings are modelled on `List Char` cores (a line never contains a newline
once the text has been split), with `String` wrappers keeping the source's
names.  External collaborators (the `markdown` library, the filesystem, the
spawned process, the environment) are explicit function parameters.
-/

namespace Md2Pdf

/-- Characters matched by Python's `\s` regex class and stripped by
`str.strip()` (both use the same whitespace notion on these characters):
ASCII whitespace plus the common Unicode whitespace characters. -/
def pyWS (c : Char) : Bool :=
  c = ' ' ∨ c = '\t' ∨ c = '\n' ∨ c = '\r' ∨ c = '\x0b' ∨ c = '\x0c' ∨
  c = '\x1c' ∨ c = '\x1d' ∨ c = '\x1e' ∨ c = '\x1f' ∨ c = '\x85' ∨
  c = ' ' ∨ c = ' ' ∨ c = ' ' ∨ c = '　'

/-- Python `str.strip()`: drop leading and trailing whitespace. -/
def pyStrip (cs : List Char) : List Char :=
  ((cs.dropWhile pyWS).reverse.dropWhile pyWS).reverse

/-- Python `content.split('\n')` on the character list: split at every
newline, keeping empty pieces (so the result is never empty). -/
def splitNl : List Char → List (List Char)
  | [] => [[]]
  | c :: rest =>
    if c = '\n' then [] :: splitNl rest
    else
      match splitNl rest with
      | [] => [[c]]
      | h :: t => (c :: h) :: t

/-- Python `'\n'.join(lines)` on character lists. -/
def joinNl : List (List Char) → List Char
  | [] => []
  | [l] => l
  | l :: ls => l ++ '\n' :: joinNl ls

/-- The regex `^(\s*)[-*+]\s` : optional leading whitespace, an unordered
list marker, then a whitespace character. -/
def matchesUnordered (cs : List Char) : Bool :=
  match cs.dropWhile pyWS with
  | m :: w :: _ => (m = '-' ∨ m = '*' ∨ m = '+') ∧ pyWS w
  | _ => false

/-- The regex `^(\s*)\d+\.\s` : optional leading whitespace, one or more
digits, a dot, then a whitespace character.  (`\d` also matches non-ASCII
decimal digits in Python; the inputs of interest are ASCII.) -/
def matchesOrdered (cs : List Char) : Bool :=
  let rest := cs.dropWhile pyWS
  let ds := rest.takeWhile Char.isDigit
  decide (ds ≠ []) &&
    match rest.drop ds.length with
    | '.' :: w :: _ => pyWS w
    | _ => false

/-- `is_list_item` test of `preprocess_markdown`: the line matches
`^(\s*)[-*+]\s` or `^(\s*)\d+\.\s`. -/
def is_list_item (cs : List Char) : Bool :=
  matchesUnordered cs || matchesOrdered cs

/-- The regex `^[-*+]\s` : an unordered marker then whitespace, with no
leading whitespace allowed. -/
def matchesUnorderedAnch (cs : List Char) : Bool :=
  match cs with
  | m :: w :: _ => (m = '-' ∨ m = '*' ∨ m = '+') ∧ pyWS w
  | _ => false

/-- The regex `^\d+\.\s` : digits, a dot, then whitespace, with no leading
whitespace allowed. -/
def matchesOrderedAnch (cs : List Char) : Bool :=
  let ds := cs.takeWhile Char.isDigit
  decide (ds ≠ []) &&
    match cs.drop ds.length with
    | '.' :: w :: _ => pyWS w
    | _ => false

/-- `prev_is_list` test of `preprocess_markdown`, applied to the already
stripped previous line: `^[-*+]\s` or `^\d+\.\s`. -/
def prev_is_list (cs : List Char) : Bool :=
  matchesUnorderedAnch cs || matchesOrderedAnch cs

/-- The insertion condition of the loop body of `preprocess_markdown` for a
line at index `i > 0`: the line is a list item, and the stripped previous
line is non-empty and is not itself a list item. -/
def needsBlankBefore (prev line : List Char) : Bool :=
  is_list_item line && decide (pyStrip prev ≠ []) && !prev_is_list (pyStrip prev)

/-- The loop of `preprocess_markdown` after the first line: `prev` is the
original previous line (`lines[i-1]`). -/
def processAux (prev : List Char) : List (List Char) → List (List Char)
  | [] => []
  | l :: ls => (if needsBlankBefore prev l then [[], l] else [l]) ++ processAux l ls

/-- The whole loop of `preprocess_markdown`: the first line (`i = 0`) is
emitted unconditionally, the rest runs `processAux`. -/
def processLines : List (List Char) → List (List Char)
  | [] => []
  | l :: ls => l :: processAux l ls

/-- `preprocess_markdown(content)`: split on newlines, insert a blank line
before each qualifying list-item line, join with newlines. -/
def preprocess_markdown (content : String) : String :=
  String.mk (joinNl (processLines (splitNl content.data)))

example : preprocess_markdown "para\npara2" = "para\npara2" := by decide
example : preprocess_markdown "Some text\n- item one\n- item two" =
    "Some text\n\n- item one\n- item two" := by decide
example : preprocess_markdown "- a\n- b" = "- a\n- b" := by decide
example : preprocess_markdown "x\n1. a" = "x\n\n1. a" := by decide
example : preprocess_markdown "  \n- a" = "  \n- a" := by decide
example : preprocess_markdown "- \n- x" = "- \n\n- x" := by decide

/-- A positional description of the insertion pass: the first line is kept,
and every later line `l`, paired with its immediately preceding original
line `p`, is emitted as `['', l]` when `q p l` holds and as `[l]` otherwise. -/
def insertSegments (q : List Char → List Char → Bool) (lines : List (List Char)) :
    List (List Char) :=
  match lines with
  | [] => []
  | l0 :: _ =>
    l0 :: (lines.zip lines.tail).flatMap
      (fun pl => if q pl.1 pl.2 then [[], pl.2] else [pl.2])

theorem processAux_eq_segments (ls : List (List Char)) : ∀ p,
    processAux p ls = ((p :: ls).zip ls).flatMap
      (fun pl => if needsBlankBefore pl.1 pl.2 then [[], pl.2] else [pl.2]) := by
  induction ls with
  | nil => intro p; rfl
  | cons l ls ih =>
    intro p
    simp only [processAux, List.zip_cons_cons, List.flatMap_cons, ih l]

/-- The loop of `preprocess_markdown` is the positional transform driven by
its insertion condition. -/
theorem processLines_eq_insertSegments (ls : List (List Char)) :
    processLines ls = insertSegments needsBlankBefore ls := by
  cases ls with
  | nil => rfl
  | cons l ls =>
    simp only [processLines, insertSegments, List.tail_cons, List.cons.injEq, true_and]
    exact processAux_eq_segments ls l

theorem splitNl_ne_nil : ∀ cs : List Char, splitNl cs ≠ []
  | [] => by simp [splitNl]
  | c :: rest => by
    simp only [splitNl]
    split
    · simp
    · split <;> simp

theorem no_nl_of_mem_splitNl : ∀ cs : List Char, ∀ l ∈ splitNl cs, '\n' ∉ l := by
  intro cs
  induction cs with
  | nil =>
    intro l hl
    simp [splitNl] at hl
    simp [hl]
  | cons c rest ih =>
    intro l hl
    simp only [splitNl] at hl
    by_cases hc : c = '\n'
    · simp [hc] at hl
      rcases hl with h | h
      · simp [h]
      · exact ih l h
    · simp only [if_neg hc] at hl
      rcases hrec : splitNl rest with _ | ⟨h0, t⟩
      · exact absurd hrec (splitNl_ne_nil rest)
      · rw [hrec] at hl
        rcases List.mem_cons.mp hl with h | h
        · subst h
          intro hmem
          rcases List.mem_cons.mp hmem with h | h
          · exact hc h.symm
          · exact ih h0 (hrec ▸ List.mem_cons_self h0 t) h
        · exact ih l (hrec ▸ List.mem_cons_of_mem h0 h)

theorem splitNl_of_no_nl : ∀ l : List Char, '\n' ∉ l → splitNl l = [l] := by
  intro l
  induction l with
  | nil => intro _; rfl
  | cons c rest ih =>
    intro h
    have hc : c ≠ '\n' := fun hh => h (hh ▸ List.mem_cons_self c rest)
    have hrest : '\n' ∉ rest := fun hh => h (List.mem_cons_of_mem c hh)
    simp only [splitNl, if_neg hc, ih hrest]

theorem splitNl_append_nl : ∀ l : List Char, '\n' ∉ l → ∀ rest : List Char,
    splitNl (l ++ '\n' :: rest) = l :: splitNl rest := by
  intro l
  induction l with
  | nil => intro _ rest; simp [splitNl]
  | cons c l ih =>
    intro h rest
    have hc : c ≠ '\n' := fun hh => h (hh ▸ List.mem_cons_self c l)
    have hl : '\n' ∉ l := fun hh => h (List.mem_cons_of_mem c hh)
    simp only [List.cons_append, splitNl, if_neg hc, List.append_eq, ih hl rest]

theorem splitNl_joinNl : ∀ ls : List (List Char), ls ≠ [] →
    (∀ l ∈ ls, '\n' ∉ l) → splitNl (joinNl ls) = ls
  | [], h, _ => absurd rfl h
  | [l], _, hnl => by simp only [joinNl]; exact splitNl_of_no_nl l (hnl l (by simp))
  | l :: l2 :: ls, _, hnl => by
    simp only [joinNl]
    rw [splitNl_append_nl l (hnl l (by simp)) (joinNl (l2 :: ls))]
    rw [splitNl_joinNl (l2 :: ls) (by simp)
      (fun x hx => hnl x (List.mem_cons_of_mem l hx))]

theorem mem_processAux : ∀ ls : List (List Char), ∀ prev, ∀ l ∈ processAux prev ls,
    l = [] ∨ l ∈ ls := by
  intro ls
  induction ls with
  | nil => intro prev l hl; simp [processAux] at hl
  | cons x ls ih =>
    intro prev l hl
    simp only [processAux, List.mem_append] at hl
    rcases hl with h | h
    · split at h
      · simp_all
        tauto
      · simp_all
    · rcases ih x l h with h | h
      · exact Or.inl h
      · exact Or.inr (List.mem_cons_of_mem x h)

theorem pyStrip_eq_nil_of_all_ws (cs : List Char) (h : ∀ c ∈ cs, pyWS c = true) :
    pyStrip cs = [] := by
  have hdrop : cs.dropWhile pyWS = [] := List.dropWhile_eq_nil_iff.mpr h
  simp [pyStrip, hdrop]

/-- The insertion condition that claim C1 describes: the preceding original
line is non-blank (its strip is non-empty) and is not itself a list-item
line, where list-item lines are recognised uniformly by `is_list_item`
(optional leading whitespace, then a marker, then whitespace). -/
def claimInsertCond (prev line : List Char) : Bool :=
  is_list_item line && decide (pyStrip prev ≠ []) && !is_list_item prev

/-- The normalizer that claim C1 describes: one blank line inserted exactly
before each list-item line whose immediately preceding original line is
non-blank and not itself a list-item line; all other lines unchanged. -/
def normalizeSpecC1 (content : String) : String :=
  String.mk (joinNl (insertSegments claimInsertCond (splitNl content.data)))

/-- C1 (counterexample).  On the input `"- \n- x"` the second line `"- x"` is
a list-item line whose immediately preceding original line `"- "` is itself a
list-item line (marker followed by whitespace), so the claimed normalizer
inserts nothing; but `preprocess_markdown` strips the previous line to `"-"`
before testing it, no longer sees a list marker followed by whitespace, and
inserts a blank line.  The code's output therefore differs from the output
the claim mandates. -/
theorem preprocess_markdown_claimC1_counterexample :
    preprocess_markdown "- \n- x" = "- \n\n- x" ∧
    normalizeSpecC1 "- \n- x" = "- \n- x" ∧
    preprocess_markdown "- \n- x" ≠ normalizeSpecC1 "- \n- x" := by
  refine ⟨by decide, by decide, ?_⟩
  decide

/-- C1 (amended).  For every input text, `preprocess_markdown` inserts
exactly one blank line directly before each list-item line whose immediately
preceding original line has a non-empty strip that does not begin with an
unordered marker followed by whitespace or digits-dot-whitespace (the test
`needsBlankBefore`, which strips the preceding line before matching); all
other lines appear in the output unaltered, in their original order, with
nothing deleted — the output is exactly the positional transform
`insertSegments needsBlankBefore` of the original lines. -/
theorem preprocess_markdown_insertion_spec :
    ∀ content : String, preprocess_markdown content =
      String.mk (joinNl (insertSegments needsBlankBefore (splitNl content.data))) := by
  intro content
  rw [preprocess_markdown, processLines_eq_insertSegments]

/-- C7.  A list item as the first line of input is never preceded by an
inserted blank line: for every input text, the first line of
`preprocess_markdown`'s output is the first line of the input (so nothing at
all, in particular no blank line, is inserted before the first line,
regardless of its content). -/
theorem preprocess_markdown_first_line (content : String) :
    (splitNl (preprocess_markdown content).data).head? =
      (splitNl content.data).head? := by
  rcases hsp : splitNl content.data with _ | ⟨l0, rest⟩
  · exact absurd hsp (splitNl_ne_nil content.data)
  · have hdata : (preprocess_markdown content).data =
        joinNl (l0 :: processAux l0 rest) := by
      simp [preprocess_markdown, hsp, processLines]
    rw [hdata, splitNl_joinNl]
    · simp
    · exact List.cons_ne_nil l0 (processAux l0 rest)
    · intro l hl
      rcases List.mem_cons.mp hl with h | h
      · subst h
        exact no_nl_of_mem_splitNl content.data l
          (hsp ▸ List.mem_cons_self l rest)
      · rcases mem_processAux rest l0 l h with h | h
        · subst h
          simp
        · exact no_nl_of_mem_splitNl content.data l
            (hsp ▸ List.mem_cons_of_mem l0 h)

/-- C8.  The normalizer is a total pure function: it is embedded as a plain
function `String → String` (no `Option`, `Except`, or state parameter, so no
error outcome and no side effect exists in its type), and it yields a result
on every textual input. -/
theorem preprocess_markdown_total :
    ∀ content : String, ∃ result : String, preprocess_markdown content = result :=
  fun content => Exists.intro (preprocess_markdown content) rfl

/-- C10.  The insertion test strips the preceding line before examining it,
so a whitespace-only preceding line counts as blank and never triggers an
insertion; and for every input text the output of `preprocess_markdown` is
exactly the positional transform that inserts a blank line precisely where
that test holds — hence no blank line is ever inserted before a list-item
line whose immediately preceding line is whitespace-only. -/
theorem preprocess_markdown_no_insertion_after_ws_line :
    (∀ prev line : List Char, (∀ c ∈ prev, pyWS c = true) →
      needsBlankBefore prev line = false) ∧
    (∀ content : String, preprocess_markdown content =
      String.mk (joinNl (insertSegments needsBlankBefore (splitNl content.data)))) := by
  constructor
  · intro prev line h
    simp [needsBlankBefore, pyStrip_eq_nil_of_all_ws prev h]
  · intro content
    rw [preprocess_markdown, processLines_eq_insertSegments]

/-- Witness for C10 at the concrete whitespace-only line `"  "` followed by
the list item `"- a"`. -/
theorem preprocess_markdown_no_insertion_after_ws_line_witness :
    needsBlankBefore [' ', ' '] ['-', ' ', 'a'] = false :=
  preprocess_markdown_no_insertion_after_ws_line.1 [' ', ' '] ['-', ' ', 'a']
    (by decide)

/-! ### Renderer invoker: `convert_html_to_pdf`

The filesystem, the process environment, and process spawning are explicit
parameters: `fsExists` answers `Path(p).exists()`, `env` is the process
environment mapping (the source never consults it), `run` is
`subprocess.run` returning exit code and captured stderr, and
`pdfStatAfter` describes the destination file after the invocation
(`None` when absent, its size in bytes when present).  The second component
of the result is the list of commands actually spawned. -/

/-- The result of `subprocess.run(cmd, capture_output=True, text=True)` as
the code consumes it: exit code and captured standard error. -/
structure ProcResult where
  returncode : Int
  stderr : String
deriving DecidableEq

/-- The observable outcome of `convert_html_to_pdf`: one of the three
`RuntimeError`s, or success printing the output file's size. -/
inductive PdfOutcome where
  | rendererNotFound (msg : String)
  | processFailed (msg : String)
  | noOutput (msg : String)
  | success (sizeBytes : Nat)
deriving DecidableEq

/-- The hardcoded, ordered Chrome/Chromium probe list `chrome_paths`. -/
def chrome_paths : List String :=
  ["/Applications/Google Chrome.app/Contents/MacOS/Google Chrome",
   "/usr/bin/google-chrome",
   "/usr/bin/chromium-browser",
   "/usr/bin/chromium"]

/-- The discovery loop: the first probe path that exists, if any. -/
def findChrome (fsExists : String → Bool) : Option String :=
  chrome_paths.find? fsExists

/-- The message of the `RuntimeError` raised when no probe path exists. -/
def chromeNotFoundMsg : String :=
  "Chrome/Chromium not found. Install Google Chrome or set CHROME_PATH env var."

/-- The command list built for `subprocess.run`. -/
def buildCmd (chrome htmlAbs pdfAbs : String) : List String :=
  [chrome, "--headless", "--disable-gpu",
   "--print-to-pdf=" ++ pdfAbs, htmlAbs]

set_option linter.unusedVariables false

/-- `convert_html_to_pdf(html_file, pdf_file)`: probe the binary list, fail
if none exists, otherwise spawn the renderer once and interpret its result
(non-zero exit code first, then absence of the destination file, otherwise
success reporting the file size).  `env` is passed but never consulted, as
in the source. -/
def convert_html_to_pdf (env : String → Option String) (fsExists : String → Bool)
    (run : List String → ProcResult) (pdfStatAfter : Option Nat)
    (htmlAbs pdfAbs : String) : PdfOutcome × List (List String) :=
  match findChrome fsExists with
  | none => (PdfOutcome.rendererNotFound chromeNotFoundMsg, [])
  | some chrome =>
    let cmd := buildCmd chrome htmlAbs pdfAbs
    let result := run cmd
    if result.returncode ≠ 0 then
      (PdfOutcome.processFailed ("Chrome conversion failed: " ++ result.stderr), [cmd])
    else
      match pdfStatAfter with
      | some size => (PdfOutcome.success size, [cmd])
      | none => (PdfOutcome.noOutput "PDF file was not created", [cmd])

/-- Whether an outcome is the success outcome. -/
def isSuccess : PdfOutcome → Bool
  | PdfOutcome.success _ => true
  | _ => false

/-- C2 (counterexample).  Success is not conditioned on a non-zero file
size: with the renderer found, exit code 0, and the destination file present
on disk with size 0 bytes, the invoker still reports success.  The file's
size is read only to be reported, never validated. -/
theorem convert_html_to_pdf_zero_size_counterexample :
    ¬ (∀ (env : String → Option String) (fsExists : String → Bool)
        (run : List String → ProcResult) (pdfStatAfter : Option Nat)
        (htmlAbs pdfAbs : String) (size : Nat),
        (convert_html_to_pdf env fsExists run pdfStatAfter htmlAbs pdfAbs).1 =
          PdfOutcome.success size → 0 < size) := by
  intro hclaim
  have h := hclaim (fun _ => none) (fun s => s == "/usr/bin/chromium")
    (fun _ => ProcResult.mk 0 "") (some 0) "/tmp/a.html" "/tmp/a.pdf" 0 (by decide)
  exact absurd h (by decide)

/-- C2 (amended).  After the renderer invocation the only integrity check on
the output PDF is that the file exists: success is reported exactly when the
renderer binary was found, the process exited with code zero, and the
destination file is present — independently of the file's size, which is
read only to be reported, and with no internal PDF structure examined. -/
theorem convert_html_to_pdf_success_iff (env : String → Option String)
    (fsExists : String → Bool) (run : List String → ProcResult)
    (pdfStatAfter : Option Nat) (htmlAbs pdfAbs : String) :
    isSuccess (convert_html_to_pdf env fsExists run pdfStatAfter htmlAbs pdfAbs).1 = true ↔
      ((∃ chrome, findChrome fsExists = some chrome ∧
          (run (buildCmd chrome htmlAbs pdfAbs)).returncode = 0) ∧
        pdfStatAfter.isSome = true) := by
  rcases hfind : findChrome fsExists with _ | chrome
  · simp [convert_html_to_pdf, hfind, isSuccess]
  · by_cases hret : (run (buildCmd chrome htmlAbs pdfAbs)).returncode = 0
    · cases pdfStatAfter with
      | none => simp [convert_html_to_pdf, hfind, hret, isSuccess]
      | some size => simp [convert_html_to_pdf, hfind, hret, isSuccess]
    · simp [convert_html_to_pdf, hfind, hret, isSuccess]

/-- C3.  Once a renderer binary has been discovered, the child process
result is interpreted by ordered checks, first match winning: a non-zero
exit code fails with the "renderer process failed" condition carrying the
captured stderr; exit code zero with the destination file absent fails with
the "renderer produced no output" condition; otherwise the invocation
succeeds reporting the output file's size. -/
theorem convert_html_to_pdf_result_interpretation (env : String → Option String)
    (fsExists : String → Bool) (run : List String → ProcResult)
    (pdfStatAfter : Option Nat) (htmlAbs pdfAbs chrome : String)
    (hfind : findChrome fsExists = some chrome) :
    ((run (buildCmd chrome htmlAbs pdfAbs)).returncode ≠ 0 →
      convert_html_to_pdf env fsExists run pdfStatAfter htmlAbs pdfAbs =
        (PdfOutcome.processFailed
          ("Chrome conversion failed: " ++ (run (buildCmd chrome htmlAbs pdfAbs)).stderr),
         [buildCmd chrome htmlAbs pdfAbs])) ∧
    ((run (buildCmd chrome htmlAbs pdfAbs)).returncode = 0 → pdfStatAfter = none →
      convert_html_to_pdf env fsExists run pdfStatAfter htmlAbs pdfAbs =
        (PdfOutcome.noOutput "PDF file was not created",
         [buildCmd chrome htmlAbs pdfAbs])) ∧
    (∀ size : Nat, (run (buildCmd chrome htmlAbs pdfAbs)).returncode = 0 →
      pdfStatAfter = some size →
      convert_html_to_pdf env fsExists run pdfStatAfter htmlAbs pdfAbs =
        (PdfOutcome.success size, [buildCmd chrome htmlAbs pdfAbs])) := by
  refine ⟨fun hret => ?_, fun hret habs => ?_, fun size hret hstat => ?_⟩
  · simp [convert_html_to_pdf, hfind, hret]
  · simp [convert_html_to_pdf, hfind, hret, habs]
  · simp [convert_html_to_pdf, hfind, hret, hstat]

/-- Witness for C3: with `/usr/bin/chromium` present and a child exiting
with code 1 and stderr `"boom"`, the outcome is the process-failed error
carrying that stderr. -/
theorem convert_html_to_pdf_result_interpretation_witness :
    convert_html_to_pdf (fun _ => none) (fun s => s == "/usr/bin/chromium")
        (fun _ => ProcResult.mk 1 "boom") (some 9) "/tmp/a.html" "/tmp/a.pdf" =
      (PdfOutcome.processFailed "Chrome conversion failed: boom",
       [buildCmd "/usr/bin/chromium" "/tmp/a.html" "/tmp/a.pdf"]) :=
  (convert_html_to_pdf_result_interpretation (fun _ => none)
    (fun s => s == "/usr/bin/chromium") (fun _ => ProcResult.mk 1 "boom")
    (some 9) "/tmp/a.html" "/tmp/a.pdf" "/usr/bin/chromium" (by decide)).1
    (by decide)

/-- C4.  If none of the configured probe paths exists, the invoker fails
with the renderer-not-found condition and the list of spawned child
processes is empty: no invocation is attempted. -/
theorem convert_html_to_pdf_renderer_not_found (env : String → Option String)
    (fsExists : String → Bool) (run : List String → ProcResult)
    (pdfStatAfter : Option Nat) (htmlAbs pdfAbs : String)
    (hnone : ∀ path ∈ chrome_paths, fsExists path = false) :
    convert_html_to_pdf env fsExists run pdfStatAfter htmlAbs pdfAbs =
      (PdfOutcome.rendererNotFound chromeNotFoundMsg, []) := by
  have hfind : findChrome fsExists = none := by
    apply List.find?_eq_none.mpr
    intro x hx
    simp [hnone x hx]
  simp [convert_html_to_pdf, hfind]

/-- Witness for C4 on the filesystem where no path exists at all. -/
theorem convert_html_to_pdf_renderer_not_found_witness :
    convert_html_to_pdf (fun _ => none) (fun _ => false)
        (fun _ => ProcResult.mk 0 "") none "a.html" "a.pdf" =
      (PdfOutcome.rendererNotFound chromeNotFoundMsg, []) :=
  convert_html_to_pdf_renderer_not_found (fun _ => none) (fun _ => false)
    (fun _ => ProcResult.mk 0 "") none "a.html" "a.pdf" (fun _ _ => rfl)

/-- C9.  Binary discovery depends only on the existence of the four
hardcoded paths (two filesystems agreeing on those four paths yield the same
discovery result), and the whole invoker never reads the environment: its
result is identical under any two environment mappings, in particular any
two differing only in `CHROME_PATH`. -/
theorem convert_html_to_pdf_env_independent :
    (∀ fs1 fs2 : String → Bool, (∀ path ∈ chrome_paths, fs1 path = fs2 path) →
      findChrome fs1 = findChrome fs2) ∧
    (∀ (env1 env2 : String → Option String) (fsExists : String → Bool)
        (run : List String → ProcResult) (pdfStatAfter : Option Nat)
        (htmlAbs pdfAbs : String),
      convert_html_to_pdf env1 fsExists run pdfStatAfter htmlAbs pdfAbs =
        convert_html_to_pdf env2 fsExists run pdfStatAfter htmlAbs pdfAbs) := by
  constructor
  · intro fs1 fs2 hagree
    have h1 := hagree "/Applications/Google Chrome.app/Contents/MacOS/Google Chrome"
      (by simp [chrome_paths])
    have h2 := hagree "/usr/bin/google-chrome" (by simp [chrome_paths])
    have h3 := hagree "/usr/bin/chromium-browser" (by simp [chrome_paths])
    have h4 := hagree "/usr/bin/chromium" (by simp [chrome_paths])
    simp only [findChrome, chrome_paths, List.find?, h1, h2, h3, h4]
  · intro env1 env2 fsExists run pdfStatAfter htmlAbs pdfAbs
    rfl

/-- Witness for C9: two filesystems that agree on the four probe paths but
differ elsewhere give the same discovery result. -/
theorem convert_html_to_pdf_env_independent_witness :
    findChrome (fun s => s == "/usr/bin/chromium") =
      findChrome (fun s => s == "/usr/bin/chromium" || s == "/opt/other") :=
  convert_html_to_pdf_env_independent.1 (fun s => s == "/usr/bin/chromium")
    (fun s => s == "/usr/bin/chromium" || s == "/opt/other") (by decide)

/-! ### Path derivation: `main` and `pathlib`

`main` derives the destination and intermediate paths with
`Path.with_suffix`; the title of the HTML document is `Path.stem`.  Both are
modelled from the `pathlib` semantics the code calls: the suffix is the part
of the final path component from its last dot on, provided that dot is
neither the component's first nor its last character; `with_suffix` replaces
it (or appends when there is none).  Paths are taken in the plain
`dir/name` form, without trailing-slash normalisation. -/

/-- Split a character list at the LAST occurrence of `sep`:
`some (before, after)` with `cs = before ++ sep :: after` and `sep ∉ after`,
or `none` when `sep` does not occur. -/
def lastSplitChar (sep : Char) : List Char → Option (List Char × List Char)
  | [] => none
  | c :: rest =>
    match lastSplitChar sep rest with
    | some (b, a) => some (c :: b, a)
    | none => if c = sep then some ([], rest) else none

/-- The final path component (`Path.name`). -/
def pyName (path : List Char) : List Char :=
  match lastSplitChar '/' path with
  | some (_, a) => a
  | none => path

/-- Everything before the final path component, including its slash. -/
def pyDirPre (path : List Char) : List Char :=
  match lastSplitChar '/' path with
  | some (b, _) => b ++ ['/']
  | none => []

/-- `Path.with_suffix` restricted to the name: when the name has a suffix
(a last dot that is neither first nor last character) the suffix is
replaced, otherwise the new suffix is appended. -/
def pyWithSuffixName (name suf : List Char) : List Char :=
  match lastSplitChar '.' name with
  | some (b, a) => if b ≠ [] ∧ a ≠ [] then b ++ suf else name ++ suf
  | none => name ++ suf

/-- `Path.stem`: the final component without its suffix. -/
def pyStemName (name : List Char) : List Char :=
  match lastSplitChar '.' name with
  | some (b, a) => if b ≠ [] ∧ a ≠ [] then b else name
  | none => name

/-- `Path(path).with_suffix(suf)` on the character lists. -/
def with_suffix_core (path suf : List Char) : List Char :=
  pyDirPre path ++ pyWithSuffixName (pyName path) suf

/-- `Path(path).with_suffix(suf)`. -/
def with_suffix (path suf : String) : String :=
  String.mk (with_suffix_core path.data suf.data)

/-- `Path(path).stem`. -/
def stem (path : String) : String :=
  String.mk (pyStemName (pyName path.data))

example : with_suffix "report.md" ".pdf" = "report.pdf" := by decide
example : with_suffix "dir/archive.tar.gz" ".pdf" = "dir/archive.tar.pdf" := by decide
example : with_suffix "README" ".pdf" = "README.pdf" := by decide
example : stem "docs/report.md" = "report" := by decide

/-- The path resolution of `main`: given the positional arguments after the
script name, return the source path, the destination PDF path (the second
argument when present, else the source with its suffix replaced by `.pdf`),
and the intermediate HTML path (always the source with its suffix replaced
by `.html`); `none` when no source argument was given. -/
def resolve_paths (argv : List String) : Option (String × String × String) :=
  match argv with
  | [] => none
  | md :: rest =>
    let pdf :=
      match rest.head? with
      | some d => d
      | none => with_suffix md ".pdf"
    some (md, pdf, with_suffix md ".html")

theorem lastSplitChar_eq_none (sep : Char) : ∀ cs : List Char, sep ∉ cs →
    lastSplitChar sep cs = none := by
  intro cs
  induction cs with
  | nil => intro _; rfl
  | cons c rest ih =>
    intro h
    have hc : c ≠ sep := fun hh => h (hh ▸ List.mem_cons_self c rest)
    have hr : sep ∉ rest := fun hh => h (List.mem_cons_of_mem c hh)
    simp [lastSplitChar, ih hr, hc]

theorem lastSplitChar_append (sep : Char) (ys : List Char) (hys : sep ∉ ys) :
    ∀ xs : List Char, lastSplitChar sep (xs ++ sep :: ys) = some (xs, ys) := by
  intro xs
  induction xs with
  | nil => simp [lastSplitChar, lastSplitChar_eq_none sep ys hys]
  | cons c xs ih => simp [lastSplitChar, ih]

/-- C5.  When no destination is supplied, the destination PDF path is the
source path with its suffix replaced by `.pdf`, and the intermediate HTML
path is always the source path with its suffix replaced by `.html`; for a
source `dir/base.md` the replacement keeps the directory part (the results
are siblings of the source), and in particular `report.md` resolves to
destination `report.pdf` with intermediate `report.html`. -/
theorem resolve_paths_derivation :
    (∀ md : String, resolve_paths [md] =
      some (md, with_suffix md ".pdf", with_suffix md ".html")) ∧
    (∀ pre base : List Char, base ≠ [] → '/' ∉ base →
      with_suffix_core (pre ++ '/' :: (base ++ ['.', 'm', 'd'])) ['.', 'p', 'd', 'f'] =
        pre ++ '/' :: (base ++ ['.', 'p', 'd', 'f']) ∧
      with_suffix_core (pre ++ '/' :: (base ++ ['.', 'm', 'd'])) ['.', 'h', 't', 'm', 'l'] =
        pre ++ '/' :: (base ++ ['.', 'h', 't', 'm', 'l'])) ∧
    resolve_paths ["report.md"] =
      some ("report.md", "report.pdf", "report.html") := by
  refine ⟨fun md => rfl, ?_, by decide⟩
  intro pre base hne hsl
  have hmd : '/' ∉ base ++ ['.', 'm', 'd'] := by
    intro h
    rcases List.mem_append.mp h with h | h
    · exact hsl h
    · revert h; decide
  constructor
  · simp only [with_suffix_core, pyDirPre, pyName,
      lastSplitChar_append '/' (base ++ ['.', 'm', 'd']) hmd pre,
      pyWithSuffixName, lastSplitChar_append '.' ['m', 'd'] (by decide) base]
    rw [if_pos ⟨hne, by decide⟩]
    simp
  · simp only [with_suffix_core, pyDirPre, pyName,
      lastSplitChar_append '/' (base ++ ['.', 'm', 'd']) hmd pre,
      pyWithSuffixName, lastSplitChar_append '.' ['m', 'd'] (by decide) base]
    rw [if_pos ⟨hne, by decide⟩]
    simp

/-- Witness for C5 at the concrete source path `dir/rep.md`. -/
theorem resolve_paths_derivation_witness :
    with_suffix_core (['d', 'i', 'r'] ++ '/' :: (['r', 'e', 'p'] ++ ['.', 'm', 'd']))
        ['.', 'p', 'd', 'f'] =
      ['d', 'i', 'r'] ++ '/' :: (['r', 'e', 'p'] ++ ['.', 'p', 'd', 'f']) :=
  (resolve_paths_derivation.2.1 ['d', 'i', 'r'] ['r', 'e', 'p']
    (by decide) (by decide)).1

/-! ### HTML composer: `convert_md_to_html`

The fixed f-string template, split at its two replacement fields (the title
`md_file.stem` and the rendered fragment `markdown.markdown(...)`).  The
`markdown` collaborator — `markdown.markdown` with the fixed extension set
`['extra', 'sane_lists', 'nl2br']` — is an explicit function parameter, and
so is the filesystem read `md_file.read_text()`. -/

def htmlTemplateHead : String :=
  "\n<!DOCTYPE html>\n<html>\n<head>\n    <meta charset=\"utf-8\">\n    <title>"

def htmlTemplateStyle : String :=
  "</title>\n    <style>\n        /* Custom PDF styling */\n        body \x7b\n" ++
  "            font-family: -apple-system, BlinkMacSystemFont, \x27Segoe UI\x27, Roboto, \x27Helvetica Neue\x27, Arial, sans-serif;\n" ++
  "            font-size: 9pt;\n            line-height: 1.8;\n            color: #333;\n" ++
  "            max-width: 100%;\n        \x7d\n\n        /* Headings */\n        h1 \x7b\n" ++
  "            font-size: 14pt;\n            font-weight: 600;\n" ++
  "            margin-top: 20pt;\n            margin-bottom: 10pt;\n" ++
  "            color: #1a1a1a;\n        \x7d\n\n        h2 \x7b\n" ++
  "            font-size: 12pt;\n            font-weight: 600;\n" ++
  "            margin-top: 16pt;\n            margin-bottom: 8pt;\n" ++
  "            color: #2a2a2a;\n        \x7d\n\n        h3 \x7b\n" ++
  "            font-size: 10pt;\n            font-weight: 600;\n" ++
  "            margin-top: 12pt;\n            margin-bottom: 6pt;\n" ++
  "            color: #3a3a3a;\n        \x7d\n\n        h4 \x7b\n" ++
  "            font-size: 9pt;\n            font-weight: 600;\n" ++
  "            margin-top: 10pt;\n            margin-bottom: 5pt;\n" ++
  "            color: #4a4a4a;\n        \x7d\n\n        /* Paragraphs */\n        p \x7b\n" ++
  "            margin-bottom: 10pt;\n        \x7d\n\n        /* Code blocks */\n" ++
  "        pre \x7b\n            background-color: #f5f5f5;\n" ++
  "            border: 1px solid #ddd;\n            border-radius: 3px;\n" ++
  "            padding: 8pt;\n" ++
  "            font-family: \x27SF Mono\x27, Monaco, \x27Courier New\x27, monospace;\n" ++
  "            font-size: 7pt;\n            line-height: 1.6;\n" ++
  "            overflow-x: auto;\n        \x7d\n\n        code \x7b\n" ++
  "            font-family: \x27SF Mono\x27, Monaco, \x27Courier New\x27, monospace;\n" ++
  "            font-size: 7pt;\n            background-color: #f5f5f5;\n" ++
  "            padding: 2pt 4pt;\n            border-radius: 3px;\n        \x7d\n\n" ++
  "        /* Tables */\n        table \x7b\n            border-collapse: collapse;\n" ++
  "            width: 100%;\n            margin: 10pt 0;\n            font-size: 8pt;\n" ++
  "        \x7d\n\n        th \x7b\n            background-color: #f0f0f0;\n" ++
  "            font-weight: 600;\n            padding: 8pt;\n            text-align: left;\n" ++
  "            border: 1px solid #ddd;\n        \x7d\n\n        td \x7b\n" ++
  "            padding: 6pt 8pt;\n            border: 1px solid #ddd;\n        \x7d\n\n" ++
  "        /* Lists */\n        ul, ol \x7b\n            margin: 8pt 0;\n" ++
  "            padding-left: 20pt;\n        \x7d\n\n        li \x7b\n" ++
  "            margin-bottom: 4pt;\n        \x7d\n\n        /* Links */\n        a \x7b\n" ++
  "            color: #0066cc;\n            text-decoration: none;\n        \x7d\n\n" ++
  "        /* Blockquotes */\n        blockquote \x7b\n" ++
  "            border-left: 4px solid #ddd;\n            margin: 12pt 0;\n" ++
  "            padding-left: 12pt;\n            color: #666;\n" ++
  "            font-style: italic;\n        \x7d\n\n        /* Horizontal rules */\n" ++
  "        hr \x7b\n            border: none;\n            border-top: 1px solid #ddd;\n" ++
  "            margin: 20pt 0;\n        \x7d\n\n        /* Strong/bold */\n" ++
  "        strong \x7b\n            font-weight: 600;\n        \x7d\n\n" ++
  "        /* Emphasis */\n        em \x7b\n            font-style: italic;\n        \x7d\n" ++
  "    </style>\n</head>\n<body>\n"

def htmlTemplateTail : String :=
  "\n</body>\n</html>\n"

/-- `convert_md_to_html(md_file, html_file)` up to the disk write: read the
source text from the filesystem `fs`, preprocess it, render it with the
markdown collaborator `mdRender`, and wrap the fragment in the fixed
template with the source's stem as title.  The returned string is exactly
the content written to the intermediate HTML file. -/
def convert_md_to_html (mdRender : String → String) (fs : String → String)
    (mdPath : String) : String :=
  let md_content := preprocess_markdown (fs mdPath)
  htmlTemplateHead ++ stem mdPath ++ htmlTemplateStyle ++
    mdRender md_content ++ htmlTemplateTail

/-- C6.  The normalize-and-compose stage is a deterministic function of the
source text and title: two pipeline runs over an unchanged source file (two
filesystem states assigning the same content to the source path), with the
same fixed markdown-rendering collaborator, produce byte-identical
intermediate HTML content. -/
theorem convert_md_to_html_deterministic (mdRender : String → String)
    (fs1 fs2 : String → String) (mdPath : String)
    (hsame : fs1 mdPath = fs2 mdPath) :
    convert_md_to_html mdRender fs1 mdPath = convert_md_to_html mdRender fs2 mdPath := by
  simp [convert_md_to_html, hsame]

/-- Witness for C6: two filesystem states that agree on the source path
(and may differ elsewhere) yield the same HTML content. -/
theorem convert_md_to_html_deterministic_witness :
    convert_md_to_html (fun s => s) (fun _ => "hello") "a.md" =
      convert_md_to_html (fun s => s)
        (fun p => if p == "a.md" then "hello" else "other") "a.md" :=
  convert_md_to_html_deterministic (fun s => s) (fun _ => "hello")
    (fun p => if p == "a.md" then "hello" else "other") "a.md" (by decide)

end Md2Pdf

